import Mathlib

/-!
Shallow embedding of the Toradex U-Boot secure-boot hardening subsystem
(`common/tdx-secboot.c`, `common/tdx-harden.c`) and proofs about it.

C strings are modelled as `List Char` (NUL-free by convention; the
terminating NUL corresponds to the end of the list).  Raw FDT property
values are also `List Char` but may contain an embedded NUL character,
which `cstr` truncates at, mirroring `strnlen`.  The flattened-device-tree
accessors `fdt_path_offset`/`fdt_getprop` are modelled by an abstract
record of two functions (node presence by path, property lookup by path
and name), as the code only composes them in that way.

The hardware lifecycle query (`sc_seco_chip_info`, AHAB build) is modelled
as an abstract query result: either an error or a 16-bit lifecycle code.
-/

namespace Tdx

/-! ## ctype helpers (ASCII, as used by the C code via linux/ctype.h) -/

def isspace (c : Char) : Bool :=
  c = ' ' || c = '\t' || c = '\n' || c = '\x0b' || c = '\x0c' || c = '\r'

def isdigit (c : Char) : Bool := '0' ≤ c && c ≤ '9'

def isalpha (c : Char) : Bool :=
  ('a' ≤ c && c ≤ 'z') || ('A' ≤ c && c ≤ 'Z')

def isalnum (c : Char) : Bool := isalpha c || isdigit c

def isxdigit (c : Char) : Bool :=
  isdigit c || ('a' ≤ c && c ≤ 'f') || ('A' ≤ c && c ≤ 'F')

/-! ## C string primitives -/

/-- `skip_spaces` from lib/string: advance past leading whitespace. -/
def skip_spaces (s : List Char) : List Char := s.dropWhile isspace

/-- `strnlen` applied to a raw property value of length `raw.length`:
the effective C string is everything before the first NUL byte. -/
def cstr (raw : List Char) : List Char := raw.takeWhile (fun c => c ≠ '\x00')

/-- `strncmp(a, b, n) == 0`: the first `n` characters agree, where the end
of a list acts as the terminating NUL (so running out on one side only is a
mismatch). -/
def strncmpEq : List Char → List Char → Nat → Bool
  | _, _, 0 => true
  | [], [], _ + 1 => true
  | [], _ :: _, _ + 1 => false
  | _ :: _, [], _ + 1 => false
  | a :: as, b :: bs, n + 1 => a = b && strncmpEq as bs n

/-- Index of the first occurrence of `needle` in `hay` (`strstr`);
`none` when there is no occurrence. -/
def strstrIdx (hay needle : List Char) : Option Nat :=
  (List.range (hay.length + 1)).find? (fun i => needle.isPrefixOf (hay.drop i))

/-! ## Configuration-tree (FDT) abstraction -/

/-- Abstraction of a flattened device tree as consumed by the code:
node presence by path (`fdt_path_offset`) and property lookup under a node
path (`fdt_getprop`).  A property value is the raw bytes with its length. -/
structure Fdt where
  hasNode : String → Bool
  getProp : String → String → Option (List Char)

def TDX_SECBOOT_NODE_PATH : String := "/chosen/toradex,secure-boot"

def TDX_BOOTARGS_NODE_PATH : String := "/chosen/toradex,secure-boot"

/-! ## Trust state resolver (`tdx-secboot.c`) -/

/-- Result of the `sc_seco_chip_info` hardware query (AHAB build):
either the call fails or it yields a lifecycle code. -/
inductive ScQuery where
  | err : ScQuery
  | ok : Nat → ScQuery
deriving DecidableEq

/-- `_tdx_secboot_dev_is_open` (AHAB branch): reduce the lifecycle query
to the open/closed trust state; `true` means the device is open. -/
def _tdx_secboot_dev_is_open : ScQuery → Bool
  | .err => false
  | .ok lc =>
    if lc = 0x1 || lc = 0x2 || lc = 0x8 then
      true            -- pristine/fab/open: break, fall through to "open"
    else if lc = 0x20 then
      true            -- NXP closed: break, fall through to "open"
    else if lc = 0x80 then
      false           -- OEM closed: return 0
    else if lc = 0x100 || lc = 0x200 || lc = 0x400 then
      true            -- field-return states: return 1
    else
      true            -- unknown: break, fall through to "open"

/-- Debug override of the HAB status (`dbg_hab_status`). -/
inductive DbgHabStatus where
  | auto : DbgHabStatus
  | forceOpen : DbgHabStatus
  | forceClosed : DbgHabStatus
deriving DecidableEq

/-- Debug override of the hardening status (`dbg_hdn_status`). -/
inductive DbgHdnStatus where
  | auto : DbgHdnStatus
  | forceDisabled : DbgHdnStatus
  | forceEnabled : DbgHdnStatus
deriving DecidableEq

/-- Build-time configuration flags feeding the static property values. -/
structure BuildConfig where
  imx_hab : Bool
  ahab_boot : Bool
  arch_k3 : Bool
  tdx_secboot_hardening : Bool
  tdx_cmd_whitelist : Bool
  tdx_bootm_protection : Bool
  tdx_cli_protection : Bool
  tdx_bootargs_protection : Bool
  tdx_secboot_hardening_dbg : Bool

/-- The ambient state the decision engine reads: the control FDT
(`gd->fdt_blob`, possibly absent), the hardware lifecycle query result,
the two debug overrides and the build configuration. -/
structure SecbootState where
  fdtBlob : Option Fdt
  habQuery : ScQuery
  dbgHab : DbgHabStatus
  dbgHdn : DbgHdnStatus
  cfg : BuildConfig

/-- `tdx_secboot_dev_is_open`: hardware answer, possibly overridden by the
debug hook. -/
def tdx_secboot_dev_is_open (st : SecbootState) : Bool :=
  match st.dbgHab with
  | .forceOpen => true
  | .forceClosed => false
  | .auto => _tdx_secboot_dev_is_open st.habQuery

/-! ## Hardening policy evaluator (`tdx-harden.c`) -/

/-- `_tdx_hardening_enabled`: hardening is on iff the FDT blob exists, the
secure-boot node exists, and the node has no "disabled" property. -/
def _tdx_hardening_enabled (fdtBlob : Option Fdt) : Bool :=
  match fdtBlob with
  | none => false
  | some fdt =>
    if !fdt.hasNode TDX_SECBOOT_NODE_PATH then false
    else if (fdt.getProp TDX_SECBOOT_NODE_PATH "disabled").isSome then false
    else true

/-- `tdx_hardening_enabled`: `_tdx_hardening_enabled` possibly overridden
by the debug hook. -/
def tdx_hardening_enabled (st : SecbootState) : Bool :=
  match st.dbgHdn with
  | .forceEnabled => true
  | .forceDisabled => false
  | .auto => _tdx_hardening_enabled st.fdtBlob

/-! ## CLI access gate (`tdx-harden.c`) -/

/-- `tdx_cli_access_enabled`: decide whether the interactive CLI may be
exposed. -/
def tdx_cli_access_enabled (st : SecbootState) : Bool :=
  if !tdx_hardening_enabled st then true
  else if tdx_secboot_dev_is_open st then true
  else
    match st.fdtBlob with
    | none => true                      -- no hardening
    | some fdt =>
      if !fdt.hasNode TDX_SECBOOT_NODE_PATH then true   -- no hardening
      else if (fdt.getProp TDX_SECBOOT_NODE_PATH
                 "enable-cli-when-closed").isSome then true
      else false

/-- Rules 1-6 of spec §4.3, written in the spec's order and words. -/
def cliAccessAllowedSpec (st : SecbootState) : Bool :=
  if tdx_hardening_enabled st = false then true
  else if tdx_secboot_dev_is_open st = true then true
  else if st.fdtBlob.isNone then true
  else
    match st.fdtBlob with
    | none => true
    | some fdt =>
      if fdt.hasNode TDX_SECBOOT_NODE_PATH = false then true
      else if (fdt.getProp TDX_SECBOOT_NODE_PATH
                 "enable-cli-when-closed").isSome then true
      else false

/-! ## Lockdown executor (`tdx_secure_boot_cmd`) -/

/-- Observable events of the lockdown path, in order of occurrence.
`panicMsg` models `panic()`, which never returns: it is always the last
event of the trace. -/
inductive BootEvent where
  | consoleMsg : String → BootEvent
  | disableCtrlc : BootEvent
  | runCommandList : List Char → Int → BootEvent
  | panicMsg : List Char → Int → BootEvent
deriving DecidableEq

/-- `tdx_secure_boot_cmd`: print a notice, disable ctrl-c delivery, run the
supplied command sequence (`run` gives its result code), and panic with a
diagnostic naming the sequence and the result code.  The trace of events is
returned; the C function does not return at all (it ends in `panic`). -/
def tdx_secure_boot_cmd (run : List Char → Int) (cmd : List Char) :
    List BootEvent :=
  let rc := run cmd
  [ .consoleMsg "## U-Boot CLI access is disabled due to Secure Boot",
    .disableCtrlc,
    .runCommandList cmd rc,
    .panicMsg cmd rc ]

/-! ## Boot argument validator (`tdx-harden.c`, CONFIG_TDX_BOOTARGS_PROTECTION) -/

/-- `enum bootarg_param_type_t`. -/
inductive BootargParamType where
  | BPARAM_NONE : BootargParamType
  | BPARAM_INTEGER : BootargParamType
  | BPARAM_OSTREE_PATH : BootargParamType
  | BPARAM_GENERIC_UUID : BootargParamType
deriving DecidableEq

/-- `struct bootarg_spec_t`. -/
structure BootargSpecEntry where
  param : List Char
  type : BootargParamType
  conflict : Option (List Char)
deriving DecidableEq

/-- The compiled `bootarg_spec[]` table. -/
def bootarg_spec : List BootargSpecEntry :=
  [ ⟨"ostree=".toList, .BPARAM_OSTREE_PATH, none⟩,
    ⟨"root=PARTUUID=".toList, .BPARAM_GENERIC_UUID, some "root=".toList⟩ ]

/-- Character class accepted by `BPARAM_OSTREE_PATH`. -/
def isOstreePathChar (c : Char) : Bool := isalnum c || c = '/' || c = '.'

/-- Character class accepted by `BPARAM_GENERIC_UUID`. -/
def isUuidChar (c : Char) : Bool := isxdigit c || c = '-'

/-- Final check of `_tdx_valid_var_bootarg`: the consumed value must be
followed by a space or the end of the string; on success the returned
pointer (`*eptr`) is the rest of the input. -/
def argBoundary (valp : List Char) : Option (List Char) :=
  match valp with
  | [] => some []
  | c :: _ => if isspace c then some valp else none

/-- `_tdx_valid_var_bootarg`: validate one variable argument's value
against its declared grammar.  `some eptr` corresponds to returning 1 with
`*eptr` set; `none` corresponds to returning 0. -/
def _tdx_valid_var_bootarg (value : List Char) (t : BootargParamType) :
    Option (List Char) :=
  match t with
  | .BPARAM_NONE => argBoundary value
  | .BPARAM_INTEGER =>
    let valp := value.dropWhile isdigit
    if valp = value then none else argBoundary valp
  | .BPARAM_OSTREE_PATH =>
    let valp := value.dropWhile isOstreePathChar
    if valp = value then none else argBoundary valp
  | .BPARAM_GENERIC_UUID =>
    let valp := value.dropWhile isUuidChar
    if valp = value then none else argBoundary valp

/-- The conflict check of `_tdx_valid_var_bootargs`: look for the first
occurrence of `confl` in `reqargs` (`strstr`); a conflict is flagged iff
that occurrence is at the very beginning, or the character right before it
is whitespace. -/
def codeConflict (reqargs confl : List Char) : Bool :=
  match strstrIdx reqargs confl with
  | none => false
  | some 0 => true
  | some (i + 1) => isspace (reqargs.getD i ' ')

/-- Outcome of `tdx_valid_bootargs`, refined by which diagnostic branch
produced it.  The C function itself collapses this to 1 (`valid`) or 0
(anything else); the carried substring is the suffix named in the
diagnostic message (the C message prints a bounded preview of it). -/
inductive BootargsResult where
  | valid : BootargsResult
  | missingNode : BootargsResult
  | missingProp : BootargsResult
  | fixedPartMismatch : BootargsResult
  | unexpectedArgument : List Char → BootargsResult
  | grammarMismatch : List Char → BootargsResult
  | conflictingArgument : List Char → BootargsResult
deriving DecidableEq

/-- First `bootarg_spec` entry whose `param` literally matches at the
current position (the for-loop over `bi` with `strncmp`). -/
def findSpecEntry (args : List Char) : Option BootargSpecEntry :=
  bootarg_spec.find? (fun e => strncmpEq args e.param e.param.length)

lemma length_dropWhile_le (p : Char → Bool) (l : List Char) :
    (l.dropWhile p).length ≤ l.length := by
  induction l with
  | nil => simp [List.dropWhile]
  | cons c cs ih =>
    by_cases h : p c
    · simp only [List.dropWhile_cons_of_pos h]
      exact Nat.le_succ_of_le ih
    · simp [List.dropWhile_cons_of_neg h]

lemma argBoundary_length_le {valp eptr : List Char}
    (h : argBoundary valp = some eptr) : eptr.length ≤ valp.length := by
  unfold argBoundary at h
  cases valp with
  | nil => simp at h; simp [← h]
  | cons c cs =>
    by_cases hc : isspace c
    · simp [hc] at h; simp [← h]
    · simp [hc] at h

lemma valid_var_bootarg_length_le {value eptr : List Char}
    {t : BootargParamType}
    (h : _tdx_valid_var_bootarg value t = some eptr) :
    eptr.length ≤ value.length := by
  unfold _tdx_valid_var_bootarg at h
  cases t <;> simp only at h
  case BPARAM_NONE => exact argBoundary_length_le h
  all_goals
    split at h
    · exact absurd h (by simp)
    · exact le_trans (argBoundary_length_le h) (length_dropWhile_le _ _)

lemma strncmpEq_iff_isPrefixOf (a b : List Char) :
    strncmpEq a b b.length = b.isPrefixOf a := by
  induction b generalizing a with
  | nil => cases a <;> rfl
  | cons x bs ih =>
    cases a with
    | nil => rfl
    | cons y as =>
      show (decide (y = x) && strncmpEq as bs bs.length) = _
      rw [ih as]
      show _ = (x == y && bs.isPrefixOf as)
      by_cases h : x = y
      · subst h; simp
      · simp [h, Ne.symm h]

lemma findSpecEntry_nil : findSpecEntry [] = none := by decide

lemma findSpecEntry_param_le {args : List Char} {e : BootargSpecEntry}
    (h : findSpecEntry args = some e) :
    0 < e.param.length ∧ e.param.length ≤ args.length := by
  have h' : bootarg_spec.find?
      (fun x => strncmpEq args x.param x.param.length) = some e := h
  have hmem : e ∈ bootarg_spec := List.mem_of_find?_eq_some h'
  have hall : ∀ x ∈ bootarg_spec, 0 < x.param.length := by decide
  have hpos : 0 < e.param.length := hall e hmem
  have hpfx : strncmpEq args e.param e.param.length = true := by
    have hp := List.find?_some h'
    simpa using hp
  rw [strncmpEq_iff_isPrefixOf] at hpfx
  have : e.param <+: args := List.isPrefixOf_iff_prefix.mp hpfx
  exact ⟨hpos, this.length_le⟩

lemma var_loop_shrinks {args : List Char} {e : BootargSpecEntry}
    {eptr : List Char}
    (hf : findSpecEntry args = some e)
    (hv : _tdx_valid_var_bootarg (args.drop e.param.length) e.type
            = some eptr) :
    (skip_spaces eptr).length < args.length := by
  obtain ⟨hpos, hle⟩ := findSpecEntry_param_le hf
  have h1 : (skip_spaces eptr).length ≤ eptr.length :=
    length_dropWhile_le _ _
  have h2 : eptr.length ≤ (args.drop e.param.length).length :=
    valid_var_bootarg_length_le hv
  rw [List.length_drop] at h2
  omega

/-- One pass of the while-loop of `_tdx_valid_var_bootargs`, with an
explicit iteration budget (`fuel`) to keep the definition structurally
recursive and hence computable by the kernel.  `var_loop_fuel_congr`
proves that any budget of at least `args.length` yields the same result,
because every iteration strictly shrinks the remaining input; the
fuel-exhaustion value is therefore never observed through
`_tdx_valid_var_bootargs`. -/
def varLoopFuel (reqargs : List Char) : Nat → List Char → BootargsResult
  | _, [] => .valid
  | 0, a :: rest => .unexpectedArgument (a :: rest)
  | fuel + 1, a :: rest =>
    match findSpecEntry (a :: rest) with
    | none => .unexpectedArgument (a :: rest)
    | some e =>
      match _tdx_valid_var_bootarg ((a :: rest).drop e.param.length) e.type
      with
      | none => .grammarMismatch (a :: rest)
      | some eptr =>
        match e.conflict with
        | some confl =>
          if codeConflict reqargs confl then .conflictingArgument (a :: rest)
          else varLoopFuel reqargs fuel (skip_spaces eptr)
        | none => varLoopFuel reqargs fuel (skip_spaces eptr)

/-- The result of `varLoopFuel` does not depend on the iteration budget as
long as the budget covers the length of the remaining input: the loop
reaches a result within `args.length` iterations. -/
lemma var_loop_fuel_congr (reqargs : List Char) :
    ∀ (b f1 f2 : Nat) (args : List Char),
      args.length ≤ b → args.length ≤ f1 → args.length ≤ f2 →
      varLoopFuel reqargs f1 args = varLoopFuel reqargs f2 args := by
  intro b
  induction b with
  | zero =>
    intro f1 f2 args hb h1 h2
    have hargs : args = [] := List.length_eq_zero.mp (Nat.le_zero.mp hb)
    subst hargs
    cases f1 <;> cases f2 <;> rfl
  | succ b ihb =>
    intro f1 f2 args hb h1 h2
    cases args with
    | nil => cases f1 <;> cases f2 <;> rfl
    | cons a rest =>
      cases f1 with
      | zero => simp at h1
      | succ f1a =>
        cases f2 with
        | zero => simp at h2
        | succ f2a =>
          simp only [varLoopFuel]
          cases hfind : findSpecEntry (a :: rest) with
          | none => rfl
          | some e =>
            cases hval : _tdx_valid_var_bootarg
                ((a :: rest).drop e.param.length) e.type with
            | none => simp only [hval]
            | some eptr =>
              simp only [hval]
              have hlt : (skip_spaces eptr).length < rest.length + 1 := by
                have hs := var_loop_shrinks hfind hval
                simpa using hs
              have hb2 : rest.length + 1 ≤ b + 1 := by simpa using hb
              have h12 : rest.length + 1 ≤ f1a + 1 := by simpa using h1
              have h22 : rest.length + 1 ≤ f2a + 1 := by simpa using h2
              have hrec : varLoopFuel reqargs f1a (skip_spaces eptr)
                  = varLoopFuel reqargs f2a (skip_spaces eptr) :=
                ihb f1a f2a (skip_spaces eptr)
                  (by omega) (by omega) (by omega)
              cases hc : e.conflict with
              | none => simp only [hc]; exact hrec
              | some confl =>
                simp only [hc]
                by_cases hcc : codeConflict reqargs confl
                · simp [hcc]
                · simp [hcc, hrec]

/-- `_tdx_valid_var_bootargs`: the while-loop validating the variable part
of the command line against `bootarg_spec`, argument by argument.  The
iteration budget `args.length` always suffices (`var_loop_fuel_congr`):
each iteration consumes at least the matched literal prefix, which is
non-empty. -/
def _tdx_valid_var_bootargs (args reqargs : List Char) : BootargsResult :=
  varLoopFuel reqargs args.length args

/-- `tdx_valid_bootargs`, refined to report which branch decided the
outcome.  `fdt` is the device tree passed to the OS; `bootargs` is the
assembled kernel command line. -/
def tdx_valid_bootargs_r (fdt : Fdt) (bootargs : List Char) :
    BootargsResult :=
  if fdt.hasNode TDX_BOOTARGS_NODE_PATH then
    match fdt.getProp TDX_BOOTARGS_NODE_PATH "required-bootargs" with
    | none => .missingProp
    | some raw =>
      let req := cstr raw
      if req.length = 0 then
        -- req_len == 0: the fixed-part checks are skipped entirely
        _tdx_valid_var_bootargs (skip_spaces bootargs) req
      else
        let args := skip_spaces bootargs
        if strncmpEq args req req.length then
          match args.drop req.length with
          | [] => _tdx_valid_var_bootargs [] req
          | c :: rest =>
            if isspace c then
              _tdx_valid_var_bootargs (skip_spaces (c :: rest)) req
            else .fixedPartMismatch
        else .fixedPartMismatch
  else .missingNode

/-- `tdx_valid_bootargs` proper: 1 (`true`) for a valid command line,
0 (`false`) otherwise. -/
def tdx_valid_bootargs (fdt : Fdt) (bootargs : List Char) : Bool :=
  match tdx_valid_bootargs_r fdt bootargs with
  | .valid => true
  | _ => false

/-! ## Secure-boot property table and command surface (`tdx-secboot.c`) -/

/-- `secboot_prop_value_t`: a static boolean or a dynamically resolved
value. -/
inductive PropVal where
  | valFalse : PropVal
  | valTrue : PropVal
  | valDyn : PropVal
deriving DecidableEq

def boolVal (b : Bool) : PropVal := if b then .valTrue else .valFalse

/-- `struct secboot_prop`: full name, short flag name, static value. -/
structure SecbootProp where
  name : String
  flag : String
  value : PropVal
deriving DecidableEq

/-- The `secboot_props[]` table, with the build-time conditionals made
explicit as functions of the build configuration. -/
def secboot_props (cfg : BuildConfig) : List SecbootProp :=
  [ ⟨"dev.closed", "clo", .valDyn⟩,
    ⟨"dev.closed-raw", "clor", .valDyn⟩,
    ⟨"hdn.enabled", "hdn", .valDyn⟩,
    ⟨"bld.secboot", "sec",
      boolVal (cfg.imx_hab || cfg.ahab_boot || cfg.arch_k3)⟩,
    ⟨"bld.hdn.all", "bhdn",
      boolVal (cfg.tdx_secboot_hardening && cfg.tdx_cmd_whitelist &&
               cfg.tdx_bootm_protection && cfg.tdx_cli_protection &&
               cfg.tdx_bootargs_protection)⟩,
    ⟨"bld.hdn.dbg", "bhdb",
      boolVal (cfg.tdx_secboot_hardening && cfg.tdx_secboot_hardening_dbg)⟩,
    ⟨"bld.hdn.whitelist", "bwl", boolVal cfg.tdx_cmd_whitelist⟩,
    ⟨"bld.hdn.bootm", "bbmp", boolVal cfg.tdx_bootm_protection⟩,
    ⟨"bld.hdn.cli", "bclp", boolVal cfg.tdx_cli_protection⟩,
    ⟨"bld.hdn.bootargs", "bbap", boolVal cfg.tdx_bootargs_protection⟩ ]

/-- The name-dispatch for `PROP_VAL_DYN` entries inside
`_secboot_get_prop`; `none` corresponds to the `return 1` on an
unhandled dynamic name. -/
def dynPropVal (st : SecbootState) (prop : String) : Option Bool :=
  if prop = "dev.closed" then some (!tdx_secboot_dev_is_open st)
  else if prop = "dev.closed-raw" then
    some (!_tdx_secboot_dev_is_open st.habQuery)
  else if prop = "hdn.enabled" then some (tdx_hardening_enabled st)
  else none

/-- `_secboot_get_prop`: look the name up in the table (first match), then
resolve dynamic entries by name-dispatch.  `some v` corresponds to
returning 0 with `*val = v`; `none` to a non-zero return (not found, or an
unhandled dynamic name). -/
def _secboot_get_prop (st : SecbootState) (prop : String) : Option Bool :=
  match (secboot_props st.cfg).find? (fun p => p.name == prop) with
  | none => none
  | some p =>
    match p.value with
    | .valDyn => dynPropVal st prop
    | .valTrue => some true
    | .valFalse => some false

/-- The `+`/`-`/`?` marker appended to a short flag name in the bulk
export. -/
def flagMark (r : Option Bool) : Char :=
  match r with
  | some true => '+'
  | some false => '-'
  | none => '?'

/-- The buffer-filling loop of the `flags` subcommand of
`do_secboot_get`: a space before every token except the first
(`if (index) *ptr++ = ' '`), then the flag name and its marker. -/
def flagsLoop (st : SecbootState) : Nat → List SecbootProp → List Char
  | _, [] => []
  | i, p :: ps =>
    (if i ≠ 0 then [' '] else []) ++ p.flag.toList
      ++ [flagMark (_secboot_get_prop st p.name)]
      ++ flagsLoop st (i + 1) ps

/-- The one-line string produced by `tdx_secboot_get flags`. -/
def secboot_flags_string (st : SecbootState) : List Char :=
  flagsLoop st 0 (secboot_props st.cfg)

def CMD_RET_SUCCESS : Int := 0

def CMD_RET_FAILURE : Int := 1

def CMD_RET_USAGE : Int := -1

/-- `do_secboot_get`: return code of the `tdx_secboot_get` command for a
given argument vector (`argv` includes the command name itself).  Output
and environment effects are not part of the return code and are modelled
separately (`secboot_flags_string`); the `calloc` of the flags branch is
assumed to succeed. -/
def do_secboot_get (st : SecbootState) (argv : List String) : Int :=
  if argv.length ≤ 1 then CMD_RET_SUCCESS
  else if 3 < argv.length then CMD_RET_USAGE
  else
    match argv.get? 1 with
    | none => CMD_RET_USAGE
    | some prop =>
      let name := argv.get? 2
      if prop = "list" && name.isNone then CMD_RET_SUCCESS
      else if prop = "flags" then CMD_RET_SUCCESS
      else if (_secboot_get_prop st prop).isNone then 16
      else CMD_RET_SUCCESS

/-! ## Spec-side reformulations (used by refinement-style claims) -/

/-- Character class of each grammar kind as the spec words it
(`None` consumes zero characters, so its class is empty). -/
def specCharClass : BootargParamType → Char → Bool
  | .BPARAM_NONE, _ => false
  | .BPARAM_INTEGER, c => isdigit c
  | .BPARAM_OSTREE_PATH, c => isOstreePathChar c
  | .BPARAM_GENERIC_UUID, c => isUuidChar c

/-- Whether the grammar kind requires at least one consumed character. -/
def specRequiresChars : BootargParamType → Bool
  | .BPARAM_NONE => false
  | _ => true

/-- The remainder of the input after consuming the value of a variable
argument, as the spec describes it. -/
def specAfterValue (t : BootargParamType) (value : List Char) : List Char :=
  value.dropWhile (specCharClass t)

/-- The conflict condition exactly as the claim words it: the conflict
string occurs at the start of `reqargs`, or immediately after a whitespace
character anywhere inside `reqargs`. -/
def specConflictTrigger (reqargs confl : List Char) : Bool :=
  confl.isPrefixOf reqargs ||
    (List.range reqargs.length).any (fun i =>
      isspace (reqargs.getD i ' ') && confl.isPrefixOf (reqargs.drop (i + 1)))

/-- The bulk flags line as the spec describes it: one token per property
in declared order, each the short-code followed by its marker, tokens
separated by a single space. -/
def exportFlagsSpec (st : SecbootState) : List Char :=
  List.intercalate [' ']
    ((secboot_props st.cfg).map
      (fun p => p.flag.toList ++ [flagMark (_secboot_get_prop st p.name)]))

/-! ## Concrete fixtures used by witnesses and counterexamples -/

def cfg0 : BuildConfig :=
  ⟨false, false, false, false, false, false, false, false, false⟩

/-- A state with no FDT and a failing hardware query. -/
def st0 : SecbootState := ⟨none, .err, .auto, .auto, cfg0⟩

/-- An FDT with no nodes and no properties. -/
def emptyFdt : Fdt := ⟨fun _ => false, fun _ _ => none⟩

/-- An FDT whose secure-boot node exists and carries a single
`required-bootargs` property with the given raw value. -/
def fdtWithReq (req : List Char) : Fdt :=
  { hasNode := fun p => decide (p = TDX_BOOTARGS_NODE_PATH),
    getProp := fun p n =>
      if p = TDX_BOOTARGS_NODE_PATH ∧ n = "required-bootargs"
      then some req else none }

/-! ## Claim theorems -/

/-- C2: in the lifecycle-code family, the trust-state resolver maps a
query error to Closed (`false`); pristine (0x1), fab (0x2) and open (0x8)
codes to Open (`true`); the NXP-closed code (0x20) to Open; the OEM-closed
code (0x80) to Closed; the field-return codes (0x100, 0x200, 0x400) to
Open; and any unrecognized code to Open. -/
theorem c2_lifecycle_mapping :
    _tdx_secboot_dev_is_open .err = false
    ∧ _tdx_secboot_dev_is_open (.ok 0x1) = true
    ∧ _tdx_secboot_dev_is_open (.ok 0x2) = true
    ∧ _tdx_secboot_dev_is_open (.ok 0x8) = true
    ∧ _tdx_secboot_dev_is_open (.ok 0x20) = true
    ∧ _tdx_secboot_dev_is_open (.ok 0x80) = false
    ∧ _tdx_secboot_dev_is_open (.ok 0x100) = true
    ∧ _tdx_secboot_dev_is_open (.ok 0x200) = true
    ∧ _tdx_secboot_dev_is_open (.ok 0x400) = true
    ∧ (∀ lc : Nat,
        lc ∉ ([0x1, 0x2, 0x8, 0x20, 0x80, 0x100, 0x200, 0x400] : List Nat) →
        _tdx_secboot_dev_is_open (.ok lc) = true) := by
  refine ⟨rfl, rfl, rfl, rfl, rfl, rfl, rfl, rfl, rfl, ?_⟩
  intro lc h
  simp only [List.mem_cons, List.not_mem_nil, or_false] at h
  push_neg at h
  obtain ⟨h1, h2, h8, h20, h80, h100, h200, h400⟩ := h
  simp [_tdx_secboot_dev_is_open, h1, h2, h8, h20, h80, h100, h200, h400]

/-- Witness for C2: the unrecognized lifecycle code 0x5a maps to Open. -/
theorem c2_witness :
    (0x5a ∉ ([0x1, 0x2, 0x8, 0x20, 0x80, 0x100, 0x200, 0x400] : List Nat))
    ∧ _tdx_secboot_dev_is_open (.ok 0x5a) = true :=
  ⟨by decide,
   c2_lifecycle_mapping.2.2.2.2.2.2.2.2.2 0x5a (by decide)⟩

/-- C4: the lockdown executor prints a notice, disables operator
interrupts (ctrl-c), runs the supplied command sequence, and then — for
every possible result code of that sequence, including success — ends in
a panic naming the sequence and its result code; the panic is the last
event of the trace, so control never returns from this path. -/
theorem c4_lockdown_trapdoor (run : List Char → Int) (cmd : List Char) :
    tdx_secure_boot_cmd run cmd =
      [ .consoleMsg "## U-Boot CLI access is disabled due to Secure Boot",
        .disableCtrlc,
        .runCommandList cmd (run cmd),
        .panicMsg cmd (run cmd) ]
    ∧ (tdx_secure_boot_cmd run cmd).getLast? =
        some (.panicMsg cmd (run cmd)) :=
  ⟨rfl, rfl⟩

/-- C9: `tdx_valid_bootargs` reports the command line invalid whenever
the bootargs policy node, or its `required-bootargs` property, is absent
from the supplied device tree. -/
theorem c9_missing_config_fail_closed (fdt : Fdt) (bootargs : List Char) :
    (fdt.hasNode TDX_BOOTARGS_NODE_PATH = false →
      tdx_valid_bootargs fdt bootargs = false)
    ∧ (fdt.getProp TDX_BOOTARGS_NODE_PATH "required-bootargs" = none →
      tdx_valid_bootargs fdt bootargs = false) := by
  constructor
  · intro h
    simp [tdx_valid_bootargs, tdx_valid_bootargs_r, h]
  · intro h
    unfold tdx_valid_bootargs tdx_valid_bootargs_r
    by_cases hn : fdt.hasNode TDX_BOOTARGS_NODE_PATH
    · simp [hn, h]
    · simp [hn]

/-- Witness for C9: the empty device tree yields an invalid result. -/
theorem c9_witness :
    emptyFdt.hasNode TDX_BOOTARGS_NODE_PATH = false
    ∧ tdx_valid_bootargs emptyFdt [] = false :=
  ⟨rfl, (c9_missing_config_fail_closed emptyFdt []).1 rfl⟩

/-- C10: every literal prefix in the compiled bootarg spec table is
non-empty, and whenever an iteration of the variable-part loop selects an
entry and its grammar check succeeds, the cursor advances by at least the
length of the matched literal prefix, so the remaining input strictly
shrinks (this fact also discharges the loop's termination proof). -/
theorem c10_var_loop_terminates :
    (∀ e ∈ bootarg_spec, e.param ≠ [])
    ∧ (∀ (args : List Char) (e : BootargSpecEntry) (eptr : List Char),
        findSpecEntry args = some e →
        _tdx_valid_var_bootarg (args.drop e.param.length) e.type
          = some eptr →
        (skip_spaces eptr).length + e.param.length ≤ args.length
        ∧ (skip_spaces eptr).length < args.length)
    ∧ (∀ (fuel : Nat) (args reqargs : List Char), args.length ≤ fuel →
        varLoopFuel reqargs fuel args = _tdx_valid_var_bootargs args reqargs)
    := by
  refine ⟨?_, ?_, ?_⟩
  · decide
  · intro args e eptr hf hv
    obtain ⟨hpos, hle⟩ := findSpecEntry_param_le hf
    have h1 : (skip_spaces eptr).length ≤ eptr.length :=
      length_dropWhile_le _ _
    have h2 : eptr.length ≤ (args.drop e.param.length).length :=
      valid_var_bootarg_length_le hv
    rw [List.length_drop] at h2
    exact ⟨by omega, var_loop_shrinks hf hv⟩
  · intro fuel args reqargs hfuel
    exact var_loop_fuel_congr reqargs args.length fuel args.length args
      le_rfl hfuel le_rfl

/-- Witness for C10: one concrete loop iteration on `"ostree=/x"`. -/
theorem c10_witness :
    ((⟨"ostree=".toList, .BPARAM_OSTREE_PATH, none⟩ : BootargSpecEntry)
        ∈ bootarg_spec
      ∧ (⟨"ostree=".toList, .BPARAM_OSTREE_PATH, none⟩
          : BootargSpecEntry).param ≠ [])
    ∧ (findSpecEntry "ostree=/x".toList
        = some ⟨"ostree=".toList, .BPARAM_OSTREE_PATH, none⟩
      ∧ _tdx_valid_var_bootarg ("ostree=/x".toList.drop 7)
          .BPARAM_OSTREE_PATH = some []
      ∧ (skip_spaces ([] : List Char)).length + 7 ≤ 9
      ∧ (skip_spaces ([] : List Char)).length < 9)
    ∧ (("ostree=/x".toList.length ≤ 20)
      ∧ varLoopFuel [] 20 "ostree=/x".toList
          = _tdx_valid_var_bootargs "ostree=/x".toList []) := by
  refine ⟨⟨by decide, c10_var_loop_terminates.1 _ (by decide)⟩,
          ⟨by decide, by decide, ?_, ?_⟩,
          by decide, c10_var_loop_terminates.2.2 20 "ostree=/x".toList []
            (by decide)⟩
  · have h := (c10_var_loop_terminates.2.1 "ostree=/x".toList
      ⟨"ostree=".toList, .BPARAM_OSTREE_PATH, none⟩ []
      (by decide) (by decide)).1
    simpa using h
  · have h := (c10_var_loop_terminates.2.1 "ostree=/x".toList
      ⟨"ostree=".toList, .BPARAM_OSTREE_PATH, none⟩ []
      (by decide) (by decide)).2
    simpa using h

/-- C1: the CLI gate equals the spec's six ordered rules (allowed exactly
when hardening is disabled, or the device is open, or no FDT blob is
available, or the policy node is absent, or it carries the
`enable-cli-when-closed` marker); in particular, with hardening disabled
it allows access regardless of trust state, and with hardening enabled,
device closed, policy node present and no marker, it denies access. -/
theorem c1_cli_access_gate (st : SecbootState) :
    (tdx_cli_access_enabled st = cliAccessAllowedSpec st)
    ∧ (tdx_hardening_enabled st = false → tdx_cli_access_enabled st = true)
    ∧ (∀ fdt : Fdt, st.fdtBlob = some fdt →
        tdx_hardening_enabled st = true →
        tdx_secboot_dev_is_open st = false →
        fdt.hasNode TDX_SECBOOT_NODE_PATH = true →
        fdt.getProp TDX_SECBOOT_NODE_PATH "enable-cli-when-closed" = none →
        tdx_cli_access_enabled st = false) := by
  refine ⟨?_, ?_, ?_⟩
  · unfold tdx_cli_access_enabled cliAccessAllowedSpec
    cases h1 : tdx_hardening_enabled st <;>
      cases h2 : tdx_secboot_dev_is_open st <;>
        cases hf : st.fdtBlob <;>
          simp [hf]
  · intro h
    simp [tdx_cli_access_enabled, h]
  · intro fdt hf h1 h2 hn hp
    simp [tdx_cli_access_enabled, h1, h2, hf, hn, hp]

/-- An FDT where the secure-boot policy node exists with no properties
(hardening on, no CLI marker). -/
def fdtBareNode : Fdt :=
  ⟨fun p => decide (p = TDX_SECBOOT_NODE_PATH), fun _ _ => none⟩

/-- A state with hardening enabled and an OEM-closed device. -/
def stClosed : SecbootState :=
  ⟨some fdtBareNode, .ok 0x80, .auto, .auto, cfg0⟩

/-- Witness for C1: with hardening enabled, the device OEM-closed, the
policy node present and no marker, CLI access is denied. -/
theorem c1_witness :
    (stClosed.fdtBlob = some fdtBareNode
      ∧ tdx_hardening_enabled stClosed = true
      ∧ tdx_secboot_dev_is_open stClosed = false
      ∧ fdtBareNode.hasNode TDX_SECBOOT_NODE_PATH = true
      ∧ fdtBareNode.getProp TDX_SECBOOT_NODE_PATH "enable-cli-when-closed"
          = none)
    ∧ tdx_cli_access_enabled stClosed = false :=
  ⟨⟨rfl, by decide, by decide, by decide, rfl⟩,
   (c1_cli_access_gate stClosed).2.2 fdtBareNode rfl (by decide) (by decide)
     (by decide) rfl⟩

/-- C7: a property name outside the table is reported not-found by
`_secboot_get_prop` (never an ordinary boolean), and the command surface
returns the distinguished exit code 16 for it, distinct from success (0),
failure (1) and usage (-1); a known property — including one whose value
is boolean false — exits with success instead. -/
theorem c7_unknown_property (st : SecbootState) (prop : String)
    (hmem : prop ∉ (secboot_props st.cfg).map SecbootProp.name) :
    _secboot_get_prop st prop = none
    ∧ (prop ≠ "list" → prop ≠ "flags" → ∀ c0 : String,
        do_secboot_get st [c0, prop] = 16)
    ∧ ((16 : Int) ≠ CMD_RET_SUCCESS ∧ (16 : Int) ≠ CMD_RET_FAILURE
        ∧ (16 : Int) ≠ CMD_RET_USAGE)
    ∧ (∀ q : String, q ≠ "list" → q ≠ "flags" →
        (_secboot_get_prop st q).isSome = true → ∀ c0 : String,
        do_secboot_get st [c0, q] = CMD_RET_SUCCESS) := by
  have hfind : (secboot_props st.cfg).find? (fun p => p.name == prop)
      = none := by
    rw [List.find?_eq_none]
    intro x hx
    simp only [beq_iff_eq]
    intro hxe
    exact hmem (List.mem_map.mpr ⟨x, hx, hxe⟩)
  have hget : _secboot_get_prop st prop = none := by
    unfold _secboot_get_prop
    rw [hfind]
  refine ⟨hget, ?_, ?_, ?_⟩
  · intro hL hF c0
    simp [do_secboot_get, hL, hF, hget]
  · refine ⟨by decide, by decide, by decide⟩
  · intro q hL hF hq c0
    obtain ⟨v, hv⟩ := Option.isSome_iff_exists.mp hq
    simp [do_secboot_get, hL, hF, hv]

/-- Witness for C7: the name "bogus" is not in the table and exits with
code 16. -/
theorem c7_witness :
    ("bogus" ∉ (secboot_props st0.cfg).map SecbootProp.name)
    ∧ do_secboot_get st0 ["tdx_secboot_get", "bogus"] = 16 :=
  ⟨by decide,
   (c7_unknown_property st0 "bogus" (by decide)).2.1 (by decide) (by decide)
     "tdx_secboot_get"⟩

/-- C8: the bulk `flags` export is, character for character, the string
obtained by querying every property of the table individually with
`_secboot_get_prop` in declared order and appending `+`/`-`/`?` to its
short-code, tokens separated by a single space. -/
theorem c8_export_flags_consistent (st : SecbootState) :
    secboot_flags_string st = exportFlagsSpec st := by
  rfl

lemma dropWhile_const_false (l : List Char) :
    l.dropWhile (fun _ => false) = l := by
  cases l with
  | nil => rfl
  | cons c cs => simp [List.dropWhile_cons_of_neg]

lemma argBoundary_eq_none_iff (valp : List Char) :
    argBoundary valp = none
      ↔ ∃ c cs, valp = c :: cs ∧ isspace c = false := by
  cases valp with
  | nil => simp [argBoundary]
  | cons c cs =>
    by_cases h : isspace c
    · simp [argBoundary, h]
    · simp only [argBoundary, h, if_false]
      constructor
      · intro
        exact ⟨c, cs, rfl, by simp [h]⟩
      · intro
        rfl

lemma argBoundary_some_eq {valp eptr : List Char}
    (h : argBoundary valp = some eptr) : eptr = valp := by
  unfold argBoundary at h
  cases valp with
  | nil => simpa using h.symm
  | cons c cs =>
    by_cases hc : isspace c
    · simp [hc] at h
      exact h.symm
    · simp [hc] at h

/-- C6: for each grammar kind, the validator consumes exactly the maximal
run of characters of the kind's class (`None`: the empty class, so zero
characters), and it fails exactly when a kind requiring at least one
character consumed none, or the character immediately after the consumed
value is neither whitespace nor the end of the string; on success the
returned end pointer is precisely the input minus the consumed value. -/
theorem c6_grammar_kinds (value : List Char) (t : BootargParamType) :
    (_tdx_valid_var_bootarg value t = none ↔
      (specRequiresChars t = true ∧ specAfterValue t value = value)
      ∨ (∃ c cs, specAfterValue t value = c :: cs ∧ isspace c = false))
    ∧ (∀ eptr, _tdx_valid_var_bootarg value t = some eptr →
        eptr = specAfterValue t value) := by
  have hAfterNone : specAfterValue .BPARAM_NONE value = value :=
    dropWhile_const_false value
  cases t with
  | BPARAM_NONE =>
    constructor
    · rw [show _tdx_valid_var_bootarg value .BPARAM_NONE
            = argBoundary value from rfl]
      rw [argBoundary_eq_none_iff, hAfterNone]
      simp [specRequiresChars]
    · intro eptr h
      rw [hAfterNone]
      exact argBoundary_some_eq h
  | BPARAM_INTEGER =>
    by_cases hv : value.dropWhile isdigit = value
    · constructor
      · constructor
        · intro
          exact Or.inl ⟨rfl, hv⟩
        · intro
          simp [_tdx_valid_var_bootarg, hv]
      · intro eptr h
        simp [_tdx_valid_var_bootarg, hv] at h
    · constructor
      · simp only [_tdx_valid_var_bootarg, hv, if_false]
        rw [argBoundary_eq_none_iff]
        simp only [specAfterValue, specCharClass, specRequiresChars]
        constructor
        · intro h
          exact Or.inr h
        · intro h
          rcases h with ⟨-, h⟩ | h
          · exact absurd h hv
          · exact h
      · intro eptr h
        simp only [_tdx_valid_var_bootarg, hv, if_false] at h
        exact argBoundary_some_eq h
  | BPARAM_OSTREE_PATH =>
    by_cases hv : value.dropWhile isOstreePathChar = value
    · constructor
      · constructor
        · intro
          exact Or.inl ⟨rfl, hv⟩
        · intro
          simp [_tdx_valid_var_bootarg, hv]
      · intro eptr h
        simp [_tdx_valid_var_bootarg, hv] at h
    · constructor
      · simp only [_tdx_valid_var_bootarg, hv, if_false]
        rw [argBoundary_eq_none_iff]
        simp only [specAfterValue, specCharClass, specRequiresChars]
        constructor
        · intro h
          exact Or.inr h
        · intro h
          rcases h with ⟨-, h⟩ | h
          · exact absurd h hv
          · exact h
      · intro eptr h
        simp only [_tdx_valid_var_bootarg, hv, if_false] at h
        exact argBoundary_some_eq h
  | BPARAM_GENERIC_UUID =>
    by_cases hv : value.dropWhile isUuidChar = value
    · constructor
      · constructor
        · intro
          exact Or.inl ⟨rfl, hv⟩
        · intro
          simp [_tdx_valid_var_bootarg, hv]
      · intro eptr h
        simp [_tdx_valid_var_bootarg, hv] at h
    · constructor
      · simp only [_tdx_valid_var_bootarg, hv, if_false]
        rw [argBoundary_eq_none_iff]
        simp only [specAfterValue, specCharClass, specRequiresChars]
        constructor
        · intro h
          exact Or.inr h
        · intro h
          rcases h with ⟨-, h⟩ | h
          · exact absurd h hv
          · exact h
      · intro eptr h
        simp only [_tdx_valid_var_bootarg, hv, if_false] at h
        exact argBoundary_some_eq h

/-- Witness for C6: on value `"12 x"` the Integer grammar consumes `12`
and returns the rest of the input. -/
theorem c6_witness :
    _tdx_valid_var_bootarg "12 x".toList .BPARAM_INTEGER = some " x".toList
    ∧ " x".toList = specAfterValue .BPARAM_INTEGER "12 x".toList :=
  ⟨by decide,
   (c6_grammar_kinds "12 x".toList .BPARAM_INTEGER).2 " x".toList
     (by decide)⟩

lemma var_bootargs_nil (req : List Char) :
    _tdx_valid_var_bootargs [] req = .valid := rfl

lemma skip_spaces_eq_self {l : List Char}
    (h : isspace (l.headD 'x') = false) : skip_spaces l = l := by
  cases l with
  | nil => rfl
  | cons c cs =>
    simp only [List.headD_cons] at h
    unfold skip_spaces
    rw [List.dropWhile_cons_of_neg (by simp [h])]

/-- Counterexample for C5: with `required-bootargs` equal to `" a"`
(a value that begins with whitespace), the command line that is exactly
equal to the required string is rejected with a fixed-part mismatch — not
accepted as the claim's boundary case demands — because the code trims
leading whitespace from the command line but compares it against the
untrimmed required string. -/
theorem c5_counterexample :
    (fdtWithReq " a".toList).getProp TDX_BOOTARGS_NODE_PATH
        "required-bootargs" = some " a".toList
    ∧ cstr " a".toList = " a".toList
    ∧ tdx_valid_bootargs_r (fdtWithReq " a".toList) " a".toList
        = .fixedPartMismatch
    ∧ tdx_valid_bootargs (fdtWithReq " a".toList) " a".toList = false :=
  ⟨by decide, by decide, by decide, by decide⟩

/-- C5 (amended): the validator trims leading whitespace from the command
line; with a non-empty required string, a non-prefix command line, or a
non-whitespace character immediately after the fixed part, yields
`fixedPartMismatch`; and a command line exactly equal to the required
string yields `valid` provided the required string does not itself begin
with a whitespace character. -/
theorem c5_fixed_part_amended (fdt : Fdt) (bootargs raw : List Char)
    (hn : fdt.hasNode TDX_BOOTARGS_NODE_PATH = true)
    (hp : fdt.getProp TDX_BOOTARGS_NODE_PATH "required-bootargs" = some raw)
    (hne : cstr raw ≠ []) :
    ((cstr raw).isPrefixOf (skip_spaces bootargs) = false →
      tdx_valid_bootargs_r fdt bootargs = .fixedPartMismatch)
    ∧ (∀ c cs,
        (cstr raw).isPrefixOf (skip_spaces bootargs) = true →
        (skip_spaces bootargs).drop (cstr raw).length = c :: cs →
        isspace c = false →
        tdx_valid_bootargs_r fdt bootargs = .fixedPartMismatch)
    ∧ (isspace ((cstr raw).headD 'x') = false →
        tdx_valid_bootargs_r fdt (cstr raw) = .valid) := by
  have hlen : (cstr raw).length ≠ 0 := by
    simpa [List.length_eq_zero] using hne
  refine ⟨?_, ?_, ?_⟩
  · intro hpre
    have hcmp : strncmpEq (skip_spaces bootargs) (cstr raw)
        (cstr raw).length = false := by
      rw [strncmpEq_iff_isPrefixOf]
      exact hpre
    simp [tdx_valid_bootargs_r, hn, hp, hlen, hcmp]
  · intro c cs hpre hdrop hc
    have hcmp : strncmpEq (skip_spaces bootargs) (cstr raw)
        (cstr raw).length = true := by
      rw [strncmpEq_iff_isPrefixOf]
      exact hpre
    simp [tdx_valid_bootargs_r, hn, hp, hlen, hcmp, hdrop, hc]
  · intro hhead
    have hskip : skip_spaces (cstr raw) = cstr raw :=
      skip_spaces_eq_self hhead
    have hcmp : strncmpEq (cstr raw) (cstr raw) (cstr raw).length
        = true := by
      rw [strncmpEq_iff_isPrefixOf]
      exact List.isPrefixOf_iff_prefix.mpr (List.prefix_refl _)
    simp [tdx_valid_bootargs_r, hn, hp, hlen, hskip, hcmp,
          List.drop_length, var_bootargs_nil]

/-- Witness for C5 (amended): with required string `"console=ttymxc0"`
the command line equal to it is accepted. -/
theorem c5_witness :
    ((fdtWithReq "console=ttymxc0".toList).hasNode TDX_BOOTARGS_NODE_PATH
        = true
      ∧ (fdtWithReq "console=ttymxc0".toList).getProp
          TDX_BOOTARGS_NODE_PATH "required-bootargs"
          = some "console=ttymxc0".toList
      ∧ cstr "console=ttymxc0".toList ≠ []
      ∧ isspace ((cstr "console=ttymxc0".toList).headD 'x') = false)
    ∧ tdx_valid_bootargs_r (fdtWithReq "console=ttymxc0".toList)
        (cstr "console=ttymxc0".toList) = .valid :=
  ⟨⟨by decide, by decide, by decide, by decide⟩,
   (c5_fixed_part_amended (fdtWithReq "console=ttymxc0".toList) []
     "console=ttymxc0".toList (by decide) (by decide) (by decide)).2.2
     (by decide)⟩

/-- Required-bootargs value of the C3 counterexample: the conflict string
`root=` occurs first inside `aroot=` (not after whitespace) and again
later after a space. -/
def reqC3 : List Char := "aroot=q root=/dev/mmcblk0p2".toList

/-- Command line of the C3 counterexample: the fixed part followed by a
`root=PARTUUID=` variable argument. -/
def clC3 : List Char :=
  "aroot=q root=/dev/mmcblk0p2 root=PARTUUID=1234-5678".toList

/-- Counterexample for C3: the conflict prefix `root=` does occur
immediately after a whitespace boundary inside the required string, so the
claim demands `conflictingArgument`; but the code consults only the FIRST
`strstr` occurrence (here inside `aroot=`, not preceded by whitespace) and
accepts the command line as valid. -/
theorem c3_counterexample :
    specConflictTrigger reqC3 "root=".toList = true
    ∧ (fdtWithReq reqC3).getProp TDX_BOOTARGS_NODE_PATH "required-bootargs"
        = some reqC3
    ∧ tdx_valid_bootargs_r (fdtWithReq reqC3) clC3 = .valid
    ∧ tdx_valid_bootargs (fdtWithReq reqC3) clC3 = true :=
  ⟨by decide, by decide, by decide, by decide⟩

/-- C3 (amended): conflict rejection is decided from the FIRST occurrence
of the declared conflict prefix in the required string: whenever the
variable part selects an entry with a conflict prefix, its value passes
the grammar check, and the first occurrence of that prefix in the required
string is at the start or immediately preceded by whitespace
(`codeConflict`), the loop fails with `conflictingArgument`; in
particular the spec's Scenario C is rejected as conflicting. -/
theorem c3_conflict_amended :
    (∀ (args reqargs : List Char) (e : BootargSpecEntry)
        (eptr confl : List Char),
        findSpecEntry args = some e →
        e.conflict = some confl →
        _tdx_valid_var_bootarg (args.drop e.param.length) e.type
          = some eptr →
        codeConflict reqargs confl = true →
        _tdx_valid_var_bootargs args reqargs = .conflictingArgument args)
    ∧ tdx_valid_bootargs_r (fdtWithReq "root=/dev/mmcblk0p2".toList)
        "root=/dev/mmcblk0p2 root=PARTUUID=1234-5678".toList
        = .conflictingArgument "root=PARTUUID=1234-5678".toList := by
  constructor
  · intro args reqargs e eptr confl hf hc hv hcc
    cases args with
    | nil =>
      rw [findSpecEntry_nil] at hf
      cases hf
    | cons a rest =>
      show varLoopFuel reqargs (a :: rest).length (a :: rest) = _
      simp only [List.length_cons, varLoopFuel]
      rw [hf]
      simp only [hv, hc, hcc, if_true]
  · decide

/-- Witness for C3 (amended): a `root=PARTUUID=` variable argument whose
conflict prefix opens the required string is rejected as conflicting. -/
theorem c3_witness :
    (findSpecEntry "root=PARTUUID=12".toList
        = some ⟨"root=PARTUUID=".toList, .BPARAM_GENERIC_UUID,
                some "root=".toList⟩
      ∧ _tdx_valid_var_bootarg ("root=PARTUUID=12".toList.drop 14)
          .BPARAM_GENERIC_UUID = some []
      ∧ codeConflict "root=/dev/x".toList "root=".toList = true)
    ∧ _tdx_valid_var_bootargs "root=PARTUUID=12".toList
        "root=/dev/x".toList
        = .conflictingArgument "root=PARTUUID=12".toList :=
  ⟨⟨by decide, by decide, by decide⟩,
   c3_conflict_amended.1 "root=PARTUUID=12".toList "root=/dev/x".toList
     ⟨"root=PARTUUID=".toList, .BPARAM_GENERIC_UUID, some "root=".toList⟩
     [] "root=".toList (by decide) (by decide) (by decide) (by decide)⟩

end Tdx
